import Mathlib

/-!
Shallow embedding of tcpping 1.0.8 (src/tcpping.c).

Probe engine: the C function `tcp_ping` (src/tcpping.c lines 36-115) is
modelled over an environment recording the results of the socket, connect
and select system calls.  Statistics aggregator: the per-outcome update
block of `main` (src/tcpping.c lines 344-403) is modelled as a fold of
`record` over the stream of rtt values returned by the probe.  C doubles
are modelled as ℚ; the C ints that are only ever incremented or, for the
skip counter, decremented while positive, are modelled as ℕ.
-/

namespace TcpPing

/-- Outcome of one probe, as encoded in the return value of the C function
`tcp_ping`: a positive rtt in milliseconds on success, -1 on timeout, -2 on
failure connecting (src/tcpping.c lines 32-34). -/
inductive ProbeOutcome where
  | success (rtt : ℚ)
  | timeout
  | connError
deriving DecidableEq

/-- The numeric value `tcp_ping` returns for each outcome
(src/tcpping.c lines 84, 92, 97, 114). -/
def ProbeOutcome.toRtt : ProbeOutcome → ℚ
  | .success r => r
  | .timeout => -1
  | .connError => -2

/-- Immediate result of the non-blocking connect call
(src/tcpping.c lines 73-77): returned 0, or -1 with errno = EINPROGRESS,
or -1 with some other errno. -/
inductive ConnectStatus where
  | ok
  | inProgress
  | failOther
deriving DecidableEq

/-- One result of the select call inside the wait loop
(src/tcpping.c lines 81-93): negative status with errno other than EINTR;
negative status with errno = EINTR; positive status (socket writable, with
the pending SO_ERROR value that getsockopt would fetch, 0 meaning no
pending error); or 0 (timeout expired). -/
inductive SelectEvent where
  | failed
  | interrupted
  | ready (soError : ℕ)
  | expired
deriving DecidableEq

/-- Environment of one `tcp_ping` call: whether socket creation succeeds,
the immediate connect result, the sequence of select results the kernel
would deliver, and the elapsed time the two clock readings would measure
on the path that reaches line 102. -/
structure ProbeEnv where
  socketOk : Bool
  connectStatus : ConnectStatus
  selectEvents : List SelectEvent
  elapsedMs : ℚ
deriving DecidableEq

/-- Result of one `tcp_ping` call.  `ret out socketClosed` means the
function returned with outcome `out`, having closed its socket iff
`socketClosed`; `exited code` means the whole process terminated via
`exit(code)`; `diverge` means the wait loop was re-entered after the last
modelled select event (an unbounded run of EINTR results). -/
inductive ProbeResult where
  | ret (out : ProbeOutcome) (socketClosed : Bool)
  | exited (code : ℕ)
  | diverge
deriving DecidableEq

/-- The do-while select loop of `tcp_ping` (src/tcpping.c lines 78-94).
On a negative select status with errno other than EINTR the code returns
-2 (line 84) without closing the socket; on a positive status it calls
getsockopt(SO_ERROR) into `optval`, never examines `optval`, breaks out
(lines 85-89), and the fall-through code closes the socket and returns the
elapsed time; on a zero status it returns -1 (line 92) without closing the
socket; on EINTR it loops again. -/
def selectLoop (elapsed : ℚ) : List SelectEvent → ProbeResult
  | [] => .diverge
  | .failed :: _ => .ret .connError false
  | .interrupted :: rest => selectLoop elapsed rest
  | .ready _ :: _ => .ret (.success elapsed) true
  | .expired :: _ => .ret .timeout false

/-- The C function `tcp_ping` (src/tcpping.c lines 36-115).  If socket
creation fails it prints a message and calls `exit(0)` (lines 50-53).  If
connect returns non-negative, the code falls through to the second clock
reading, closes the socket and returns the elapsed time (lines 101-114).
If connect fails with errno = EINPROGRESS it enters the select loop; with
any other errno it returns -2 (line 97) without closing the socket. -/
def tcp_ping (env : ProbeEnv) : ProbeResult :=
  if env.socketOk = false then .exited 0
  else
    match env.connectStatus with
    | .ok => .ret (.success env.elapsedMs) true
    | .inProgress => selectLoop env.elapsedMs env.selectEvents
    | .failOther => .ret .connError false

/-- The statistics state of `main` (src/tcpping.c lines 187-197 and
342-343): skip counter, ping/success/fail counters, loss percentage,
running sum/count/min/max/average, and the jitter state. -/
structure Stats where
  skip : ℕ
  ping_count : ℕ
  ping_success : ℕ
  ping_fail : ℕ
  ping_loss : ℚ
  stat_sum : ℚ
  stat_count : ℕ
  stat_min : ℚ
  stat_max : ℚ
  stat_ave : ℚ
  prev_rtt : ℚ
  jitter_total : ℚ
  jitter_count : ℕ
  jitter : ℚ
deriving DecidableEq

/-- Initial statistics state with skip counter `k`
(src/tcpping.c lines 188-197: sums and counters 0, `prev_rtt = -1`
at line 342). -/
def initStats (k : ℕ) : Stats :=
  { skip := k
    ping_count := 0
    ping_success := 0
    ping_fail := 0
    ping_loss := 0
    stat_sum := 0
    stat_count := 0
    stat_min := 0
    stat_max := 0
    stat_ave := 0
    prev_rtt := -1
    jitter_total := 0
    jitter_count := 0
    jitter := 0 }

/-- The statistics update block of `main` for one returned rtt value
(src/tcpping.c lines 369-398), transcribed statement by statement:
if the skip counter is nonzero it is decremented and nothing else is
touched; otherwise `ping_count` is incremented, then either the success
branch (rtt > 0) runs sum/count, jitter, seeding and min/max updates and
recomputes the average, or `ping_fail` is incremented; finally the loss
percentage is recomputed. -/
def record (s : Stats) (rtt : ℚ) : Stats :=
  if s.skip ≠ 0 then
    { s with skip := s.skip - 1 }
  else
    let s1 : Stats := { s with ping_count := s.ping_count + 1 }
    let s2 : Stats :=
      if 0 < rtt then
        let t1 : Stats := { s1 with ping_success := s1.ping_success + 1
                                    stat_sum := s1.stat_sum + rtt
                                    stat_count := s1.stat_count + 1 }
        let t2 : Stats :=
          if t1.prev_rtt = -1 then
            { t1 with prev_rtt := rtt }
          else
            let d0 := t1.prev_rtt - rtt
            let d := if d0 < 0 then 0 - d0 else d0
            { t1 with jitter_total := t1.jitter_total + d
                      prev_rtt := rtt
                      jitter_count := t1.jitter_count + 1
                      jitter := (t1.jitter_total + d) / ((t1.jitter_count + 1 : ℕ) : ℚ) }
        let t3 : Stats := if t2.stat_count = 1 then { t2 with stat_min := rtt, stat_max := rtt } else t2
        let t4 : Stats := if rtt < t3.stat_min then { t3 with stat_min := rtt } else t3
        let t5 : Stats := if t4.stat_max < rtt then { t4 with stat_max := rtt } else t4
        { t5 with stat_ave := t5.stat_sum / (t5.stat_count : ℚ) }
      else
        { s1 with ping_fail := s1.ping_fail + 1 }
    { s2 with ping_loss := (s2.ping_fail : ℚ) / (s2.ping_count : ℚ) * 100 }

/-- Feeding one probe outcome to the aggregator: `main` passes the raw
return value of `tcp_ping` to the update block (src/tcpping.c line 346). -/
def recordOutcome (s : Stats) (o : ProbeOutcome) : Stats :=
  record s o.toRtt

/-- Running the aggregator from the initial state with skip counter `k`
over a stream of probe outcomes. -/
def runOutcomes (k : ℕ) (os : List ProbeOutcome) : Stats :=
  os.foldl recordOutcome (initStats k)

/-- Which per-probe line the display block of `main` prints for a given
rtt value (src/tcpping.c lines 352-367): per-probe lines are printed only
in display mode 0; a time line for rtt > 0, a timeout line for rtt = -1,
a connection-error line for rtt = -2, and nothing otherwise. -/
inductive LineKind where
  | timeLine
  | timeoutLine
  | errorLine
deriving DecidableEq

/-- The per-probe display dispatch of `main` (src/tcpping.c lines
352-367) as a function of the display mode and the returned rtt. -/
def displayLine (display : ℕ) (rtt : ℚ) : Option LineKind :=
  if display = 0 then
    if 0 < rtt then some .timeLine
    else if rtt = -1 then some .timeoutLine
    else if rtt = -2 then some .errorLine
    else none
  else none

/-- Environment of a probe against a port with nothing listening, as the
refusal actually surfaces with a non-blocking socket: connect returns -1
with errno = EINPROGRESS, then select reports the socket writable with
pending SO_ERROR = ECONNREFUSED (111). -/
def refusedEnv : ProbeEnv :=
  { socketOk := true
    connectStatus := .inProgress
    selectEvents := [.ready 111]
    elapsedMs := 3/10 }

/-- Environment in which socket creation fails. -/
def sockFailEnv : ProbeEnv :=
  { socketOk := false
    connectStatus := .inProgress
    selectEvents := []
    elapsedMs := 0 }

/-- Environment of a probe whose select wait expires (a plain timeout). -/
def timeoutEnv : ProbeEnv :=
  { socketOk := true
    connectStatus := .inProgress
    selectEvents := [.expired]
    elapsedMs := 0 }

/-- Environment of a probe whose select call fails with errno ≠ EINTR. -/
def selectFailEnv : ProbeEnv :=
  { socketOk := true
    connectStatus := .inProgress
    selectEvents := [.failed]
    elapsedMs := 0 }

/-- The property claimed of socket-creation failure: the process
terminates with a non-zero exit status. -/
def exitsNonzero (r : ProbeResult) : Prop :=
  ∃ c, r = ProbeResult.exited c ∧ c ≠ 0

/-- Claim C1: on an immediately refused connection — connect in progress,
select reports the socket writable with pending SO_ERROR = ECONNREFUSED —
the code returns the elapsed time as a success and not ConnectionError:
getsockopt fetches the pending error into `optval` but `optval` is never
examined (src/tcpping.c lines 85-89). -/
theorem tcp_ping_refusal_reported_success :
    tcp_ping refusedEnv = ProbeResult.ret (ProbeOutcome.success (3/10)) true ∧
    tcp_ping refusedEnv ≠ ProbeResult.ret ProbeOutcome.connError false ∧
    tcp_ping refusedEnv ≠ ProbeResult.ret ProbeOutcome.connError true ∧
    tcp_ping refusedEnv ≠ ProbeResult.ret ProbeOutcome.timeout false ∧
    tcp_ping refusedEnv ≠ ProbeResult.ret ProbeOutcome.timeout true := by
  refine ⟨rfl, ?_, ?_, ?_, ?_⟩ <;> decide

/-- Claim C2, counterexample: when socket creation fails the process
terminates via `exit(0)` (src/tcpping.c lines 50-53), so its exit status
is 0, not a non-zero-equivalent value. -/
theorem tcp_ping_socket_failure_exits_zero :
    tcp_ping sockFailEnv = ProbeResult.exited 0 ∧
    ¬ exitsNonzero (tcp_ping sockFailEnv) := by
  constructor
  · rfl
  · rintro ⟨c, hc, hne⟩
    have : ProbeResult.exited 0 = ProbeResult.exited c := by
      rw [← hc]; rfl
    exact hne (ProbeResult.exited.injEq 0 c ▸ this).symm

/-- Claim C2, amended: if socket creation fails the probe never returns a
per-probe outcome; the whole process terminates immediately via exit with
status 0, independent of everything else in the environment (hence no
retry). -/
theorem tcp_ping_socket_failure_fatal (env : ProbeEnv)
    (h : env.socketOk = false) :
    tcp_ping env = ProbeResult.exited 0 := by
  simp [tcp_ping, h]

/-- Witness for `tcp_ping_socket_failure_fatal` at the concrete
environment `sockFailEnv`. -/
theorem tcp_ping_socket_failure_fatal_witness :
    sockFailEnv.socketOk = false ∧ tcp_ping sockFailEnv = ProbeResult.exited 0 :=
  ⟨rfl, tcp_ping_socket_failure_fatal sockFailEnv rfl⟩

/-- Claim C3: on the timeout return path and on both connection-error
return paths, `tcp_ping` returns without closing its socket — `close` is
reached only on the success path (src/tcpping.c line 105), so the socket
outlives the probe call on every Timeout and ConnectionError outcome. -/
theorem tcp_ping_timeout_and_error_leak_socket :
    tcp_ping timeoutEnv = ProbeResult.ret ProbeOutcome.timeout false ∧
    tcp_ping selectFailEnv = ProbeResult.ret ProbeOutcome.connError false ∧
    tcp_ping { sockFailEnv with socketOk := true, connectStatus := .failOther }
      = ProbeResult.ret ProbeOutcome.connError false := by
  refine ⟨rfl, rfl, rfl⟩

/-- Claim C4: feeding the aggregator the outcome sequence
[Success 5, Timeout, Success 15, ConnectionError, Success 10] with skip
count 0 yields total 5, success 3, fail 2, loss 40, min 5, max 15, ave 10
and jitter 15/2; the timeout and error contribute no jitter term (only
two jitter terms are recorded) and do not reset `prev_rtt`. -/
theorem aggregator_roundtrip_example :
    (runOutcomes 0 [ProbeOutcome.success 5, ProbeOutcome.timeout,
        ProbeOutcome.success 15, ProbeOutcome.connError,
        ProbeOutcome.success 10]).ping_count = 5 ∧
    (runOutcomes 0 [ProbeOutcome.success 5, ProbeOutcome.timeout,
        ProbeOutcome.success 15, ProbeOutcome.connError,
        ProbeOutcome.success 10]).ping_success = 3 ∧
    (runOutcomes 0 [ProbeOutcome.success 5, ProbeOutcome.timeout,
        ProbeOutcome.success 15, ProbeOutcome.connError,
        ProbeOutcome.success 10]).ping_fail = 2 ∧
    (runOutcomes 0 [ProbeOutcome.success 5, ProbeOutcome.timeout,
        ProbeOutcome.success 15, ProbeOutcome.connError,
        ProbeOutcome.success 10]).ping_loss = 40 ∧
    (runOutcomes 0 [ProbeOutcome.success 5, ProbeOutcome.timeout,
        ProbeOutcome.success 15, ProbeOutcome.connError,
        ProbeOutcome.success 10]).stat_min = 5 ∧
    (runOutcomes 0 [ProbeOutcome.success 5, ProbeOutcome.timeout,
        ProbeOutcome.success 15, ProbeOutcome.connError,
        ProbeOutcome.success 10]).stat_max = 15 ∧
    (runOutcomes 0 [ProbeOutcome.success 5, ProbeOutcome.timeout,
        ProbeOutcome.success 15, ProbeOutcome.connError,
        ProbeOutcome.success 10]).stat_ave = 10 ∧
    (runOutcomes 0 [ProbeOutcome.success 5, ProbeOutcome.timeout,
        ProbeOutcome.success 15, ProbeOutcome.connError,
        ProbeOutcome.success 10]).jitter = 15/2 ∧
    (runOutcomes 0 [ProbeOutcome.success 5, ProbeOutcome.timeout,
        ProbeOutcome.success 15, ProbeOutcome.connError,
        ProbeOutcome.success 10]).jitter_count = 2 ∧
    (runOutcomes 0 [ProbeOutcome.success 5, ProbeOutcome.timeout,
        ProbeOutcome.success 15, ProbeOutcome.connError,
        ProbeOutcome.success 10]).prev_rtt = 10 := by
  norm_num [runOutcomes, recordOutcome, record, initStats, ProbeOutcome.toRtt]

/-- Claim C9: jitter is order-dependent — success rtts [10, 10, 20] give
jitter 5, while the same multiset in order [10, 20, 10] gives jitter 10. -/
theorem jitter_order_dependence :
    (runOutcomes 0 [ProbeOutcome.success 10, ProbeOutcome.success 10,
        ProbeOutcome.success 20]).jitter = 5 ∧
    (runOutcomes 0 [ProbeOutcome.success 10, ProbeOutcome.success 20,
        ProbeOutcome.success 10]).jitter = 10 := by
  norm_num [runOutcomes, recordOutcome, record, initStats, ProbeOutcome.toRtt]

/-! Bridge lemmas: closed-form characterizations of one `record` step,
proved from the transcription above and used by the general theorems. -/

/-- If the skip counter is nonzero, `record` only decrements it
(src/tcpping.c lines 370-371). -/
theorem record_skip (s : Stats) (r : ℚ) (h : s.skip ≠ 0) :
    record s r = { s with skip := s.skip - 1 } := by
  simp [record, h]

/-- With the skip window over, a non-positive rtt increments `ping_count`
and `ping_fail` and recomputes the loss percentage, leaving every other
field unchanged (src/tcpping.c lines 373, 395, 397). -/
theorem record_fail_eq (s : Stats) (r : ℚ) (h0 : s.skip = 0) (hr : ¬ 0 < r) :
    record s r = { s with
      ping_count := s.ping_count + 1
      ping_fail := s.ping_fail + 1
      ping_loss := ((s.ping_fail : ℚ) + 1) / ((s.ping_count : ℚ) + 1) * 100 } := by
  simp [record, h0, hr]

/-- The absolute-value idiom of the C source (src/tcpping.c lines
381-382: negate the difference when it is negative) equals `|·|`. -/
theorem ite_neg_abs (a : ℚ) : (if a < 0 then 0 - a else a) = |a| := by
  split_ifs with h
  · rw [abs_of_neg h]; ring
  · rw [abs_of_nonneg (not_lt.mp h)]

/-- With the skip window over, a positive rtt runs the success branch
(src/tcpping.c lines 374-393): counters, sum, jitter state, min/max
seeding or comparison updates, average and loss recomputation, expressed
in closed form. -/
theorem record_succ_eq (s : Stats) (r : ℚ) (h0 : s.skip = 0) (hr : 0 < r) :
    record s r = { s with
      ping_count := s.ping_count + 1
      ping_success := s.ping_success + 1
      stat_sum := s.stat_sum + r
      stat_count := s.stat_count + 1
      prev_rtt := r
      jitter_total := if s.prev_rtt = -1 then s.jitter_total
                      else s.jitter_total + |s.prev_rtt - r|
      jitter_count := if s.prev_rtt = -1 then s.jitter_count
                      else s.jitter_count + 1
      jitter := if s.prev_rtt = -1 then s.jitter
                else (s.jitter_total + |s.prev_rtt - r|) / ((s.jitter_count : ℚ) + 1)
      stat_min := if s.stat_count = 0 then r else min s.stat_min r
      stat_max := if s.stat_count = 0 then r else max s.stat_max r
      stat_ave := (s.stat_sum + r) / ((s.stat_count : ℚ) + 1)
      ping_loss := (s.ping_fail : ℚ) / ((s.ping_count : ℚ) + 1) * 100 } := by
  simp only [record, h0, ne_eq, not_true_eq_false, if_false, ite_false, if_pos hr,
    ite_neg_abs]
  split_ifs with h1 h2 h3 h4
  all_goals simp_all [Stats.mk.injEq, min_def, max_def]
  all_goals try constructor
  all_goals try (split_ifs <;> linarith)

/-- Claim C10: with the skip window over, a probe whose returned elapsed
time is exactly 0 ms fails the strict `rtt > 0` test of the statistics
loop (src/tcpping.c line 374): it increments `ping_count` and `ping_fail`
and leaves `ping_success` unchanged, and the per-probe display block
(src/tcpping.c lines 353-366) prints no success, timeout or error line
for it. -/
theorem zero_rtt_is_failure (s : Stats) (h0 : s.skip = 0) :
    (record s 0).ping_fail = s.ping_fail + 1 ∧
    (record s 0).ping_success = s.ping_success ∧
    (record s 0).ping_count = s.ping_count + 1 ∧
    displayLine 0 0 = none := by
  rw [record_fail_eq s 0 h0 (by norm_num)]
  refine ⟨rfl, rfl, rfl, ?_⟩
  norm_num [displayLine]

/-- Witness for `zero_rtt_is_failure` at the initial state with skip 0. -/
theorem zero_rtt_is_failure_witness :
    (initStats 0).skip = 0 ∧
    ((record (initStats 0) 0).ping_fail = (initStats 0).ping_fail + 1 ∧
     (record (initStats 0) 0).ping_success = (initStats 0).ping_success ∧
     (record (initStats 0) 0).ping_count = (initStats 0).ping_count + 1 ∧
     displayLine 0 0 = none) :=
  ⟨rfl, zero_rtt_is_failure (initStats 0) rfl⟩

/-- Claim C6: as long as the skip counter covers them, recorded outcomes
leave every statistic — counters, sum, min/max/average and all jitter
state — unchanged whatever their outcome type; the skip counter alone is
decremented, once per outcome (src/tcpping.c lines 370-371). -/
theorem skip_window_frame (s : Stats) (os : List ProbeOutcome)
    (h : os.length ≤ s.skip) :
    os.foldl recordOutcome s = { s with skip := s.skip - os.length } := by
  induction os generalizing s with
  | nil => rfl
  | cons o rest ih =>
      have hs : s.skip ≠ 0 := by
        simp only [List.length_cons] at h; omega
      have hstep : recordOutcome s o = { s with skip := s.skip - 1 } :=
        record_skip s o.toRtt hs
      rw [List.foldl_cons, hstep,
        ih { s with skip := s.skip - 1 } (by simp only [List.length_cons] at h; simp; omega)]
      simp only [List.length_cons]
      congr 1
      omega

/-- Witness for `skip_window_frame`: two skipped outcomes against an
initial skip counter of 2. -/
theorem skip_window_frame_witness :
    [ProbeOutcome.success 5, ProbeOutcome.timeout].length ≤ (initStats 2).skip ∧
    [ProbeOutcome.success 5, ProbeOutcome.timeout].foldl recordOutcome (initStats 2)
      = { initStats 2 with
            skip := (initStats 2).skip
              - [ProbeOutcome.success 5, ProbeOutcome.timeout].length } :=
  ⟨by decide, skip_window_frame (initStats 2) _ (by decide)⟩

/-- Loss-ratio invariant along a run with the skip window already over:
the skip counter stays 0, `ping_count` splits into successes and
failures, and `ping_loss` always equals the loss formula (at `ping_count
= 0` both sides are 0, ℚ division by zero being 0). -/
theorem loss_inv (os : List ProbeOutcome) : ∀ s : Stats, s.skip = 0 →
    s.ping_count = s.ping_success + s.ping_fail →
    s.ping_loss = (s.ping_fail : ℚ) / (s.ping_count : ℚ) * 100 →
    (os.foldl recordOutcome s).skip = 0 ∧
    (os.foldl recordOutcome s).ping_count
      = (os.foldl recordOutcome s).ping_success + (os.foldl recordOutcome s).ping_fail ∧
    (os.foldl recordOutcome s).ping_loss
      = ((os.foldl recordOutcome s).ping_fail : ℚ)
          / ((os.foldl recordOutcome s).ping_count : ℚ) * 100 := by
  induction os with
  | nil => intro s h0 hc hl; exact ⟨h0, hc, hl⟩
  | cons o rest ih =>
      intro s h0 hc hl
      rw [List.foldl_cons]
      have hro : recordOutcome s o = record s o.toRtt := rfl
      by_cases hr : 0 < o.toRtt
      · have he := record_succ_eq s o.toRtt h0 hr
        refine ih _ ?_ ?_ ?_ <;> rw [hro, he] <;> dsimp only
        · exact h0
        · omega
        · push_cast; ring
      · have he := record_fail_eq s o.toRtt h0 hr
        refine ih _ ?_ ?_ ?_ <;> rw [hro, he] <;> dsimp only
        · exact h0
        · omega
        · push_cast; ring

/-- Claim C5: with skip 0, after any outcome stream the loss percentage
equals fail/(fail+success)·100 (with the ℚ convention this also covers
the empty run, where no division was ever performed and the initial value
0 is reported); it is 0 whenever the fail counter is 0. -/
theorem loss_ratio_formula (os : List ProbeOutcome) :
    (runOutcomes 0 os).ping_loss =
      ((runOutcomes 0 os).ping_fail : ℚ)
        / (((runOutcomes 0 os).ping_fail : ℚ) + ((runOutcomes 0 os).ping_success : ℚ))
        * 100 ∧
    ((runOutcomes 0 os).ping_fail = 0 → (runOutcomes 0 os).ping_loss = 0) ∧
    (runOutcomes 0 []).ping_loss = 0 := by
  obtain ⟨-, h1, h2⟩ := loss_inv os (initStats 0) rfl rfl (by norm_num [initStats])
  have hform : (runOutcomes 0 os).ping_loss =
      ((runOutcomes 0 os).ping_fail : ℚ)
        / (((runOutcomes 0 os).ping_fail : ℚ) + ((runOutcomes 0 os).ping_success : ℚ))
        * 100 := by
    rw [show (runOutcomes 0 os) = os.foldl recordOutcome (initStats 0) from rfl, h2, h1]
    push_cast
    ring_nf
  refine ⟨hform, ?_, rfl⟩
  intro hz
  rw [hform, hz]
  norm_num

/-- Witness for `loss_ratio_formula` on a concrete one-timeout stream. -/
theorem loss_ratio_formula_witness :
    (runOutcomes 0 [ProbeOutcome.timeout]).ping_loss =
      ((runOutcomes 0 [ProbeOutcome.timeout]).ping_fail : ℚ)
        / (((runOutcomes 0 [ProbeOutcome.timeout]).ping_fail : ℚ)
            + ((runOutcomes 0 [ProbeOutcome.timeout]).ping_success : ℚ)) * 100 ∧
    ((runOutcomes 0 [ProbeOutcome.timeout]).ping_fail = 0 →
      (runOutcomes 0 [ProbeOutcome.timeout]).ping_loss = 0) ∧
    (runOutcomes 0 []).ping_loss = 0 :=
  loss_ratio_formula [ProbeOutcome.timeout]

/-- Running invariant of the aggregator: counters are consistent,
`stat_count` tracks `ping_success`, the running sum is 0 before the first
success, and once a success exists the min/max bound the sum and the
average is sum over count. -/
def Inv7 (s : Stats) : Prop :=
  s.ping_count = s.ping_success + s.ping_fail ∧
  s.stat_count = s.ping_success ∧
  (s.ping_success = 0 → s.stat_sum = 0) ∧
  (0 < s.ping_success →
    (s.stat_count : ℚ) * s.stat_min ≤ s.stat_sum ∧
    s.stat_sum ≤ (s.stat_count : ℚ) * s.stat_max ∧
    s.stat_ave = s.stat_sum / (s.stat_count : ℚ))

/-- The initial state satisfies the running invariant. -/
theorem inv7_init (k : ℕ) : Inv7 (initStats k) := by
  simp [Inv7, initStats]

/-- One `record` step preserves the running invariant. -/
theorem inv7_record (s : Stats) (r : ℚ) (h : Inv7 s) : Inv7 (record s r) := by
  obtain ⟨hc, hsc, hz, hb⟩ := h
  by_cases h0 : s.skip = 0
  · by_cases hr : 0 < r
    · rw [record_succ_eq s r h0 hr]
      rcases Nat.eq_zero_or_pos s.ping_success with hs0 | hsp
      · have hc0 : s.stat_count = 0 := by rw [hsc, hs0]
        have hsum : s.stat_sum = 0 := hz hs0
        refine ⟨by dsimp only; omega, by dsimp only; omega, by dsimp only; omega, ?_⟩
        intro _
        dsimp only
        rw [if_pos hc0, if_pos hc0, hc0, hsum]
        norm_num
      · have hc0 : s.stat_count ≠ 0 := by omega
        obtain ⟨hmin, hmax, hav⟩ := hb hsp
        refine ⟨by dsimp only; omega, by dsimp only; omega, by dsimp only; omega, ?_⟩
        intro _
        dsimp only
        rw [if_neg hc0, if_neg hc0]
        push_cast
        refine ⟨?_, ?_, rfl⟩
        · have h1 : (s.stat_count : ℚ) * min s.stat_min r
              ≤ (s.stat_count : ℚ) * s.stat_min :=
            mul_le_mul_of_nonneg_left (min_le_left _ _) (Nat.cast_nonneg _)
          have h2 : min s.stat_min r ≤ r := min_le_right _ _
          calc ((s.stat_count : ℚ) + 1) * min s.stat_min r
              = (s.stat_count : ℚ) * min s.stat_min r + min s.stat_min r := by ring
            _ ≤ (s.stat_count : ℚ) * s.stat_min + r := add_le_add h1 h2
            _ ≤ s.stat_sum + r := by linarith
        · have h1 : (s.stat_count : ℚ) * s.stat_max
              ≤ (s.stat_count : ℚ) * max s.stat_max r :=
            mul_le_mul_of_nonneg_left (le_max_left _ _) (Nat.cast_nonneg _)
          have h2 : r ≤ max s.stat_max r := le_max_right _ _
          calc s.stat_sum + r
              ≤ (s.stat_count : ℚ) * s.stat_max + r := by linarith
            _ ≤ (s.stat_count : ℚ) * max s.stat_max r + max s.stat_max r :=
                add_le_add h1 h2
            _ = ((s.stat_count : ℚ) + 1) * max s.stat_max r := by ring
    · rw [record_fail_eq s r h0 hr]
      exact ⟨by dsimp only; omega, by dsimp only; omega,
        by dsimp only; exact hz, by dsimp only; exact hb⟩
  · rw [record_skip s r h0]
    exact ⟨by dsimp only; omega, by dsimp only; omega,
      by dsimp only; exact hz, by dsimp only; exact hb⟩

/-- The running invariant holds after folding any outcome stream. -/
theorem inv7_fold (os : List ProbeOutcome) : ∀ s : Stats,
    Inv7 s → Inv7 (os.foldl recordOutcome s) := by
  induction os with
  | nil => intro s h; exact h
  | cons o rest ih => intro s h; exact ih _ (inv7_record s o.toRtt h)

/-- One `record` step never decreases the three counters. -/
theorem record_mono (s : Stats) (r : ℚ) :
    s.ping_count ≤ (record s r).ping_count ∧
    s.ping_success ≤ (record s r).ping_success ∧
    s.ping_fail ≤ (record s r).ping_fail := by
  by_cases h0 : s.skip = 0
  · by_cases hr : 0 < r
    · rw [record_succ_eq s r h0 hr]; dsimp only; omega
    · rw [record_fail_eq s r h0 hr]; dsimp only; omega
  · rw [record_skip s r h0]; dsimp only; omega

/-- Folding any further outcome stream never decreases the counters. -/
theorem fold_mono (os : List ProbeOutcome) : ∀ s : Stats,
    s.ping_count ≤ (os.foldl recordOutcome s).ping_count ∧
    s.ping_success ≤ (os.foldl recordOutcome s).ping_success ∧
    s.ping_fail ≤ (os.foldl recordOutcome s).ping_fail := by
  induction os with
  | nil => intro s; exact ⟨le_refl _, le_refl _, le_refl _⟩
  | cons o rest ih =>
      intro s
      obtain ⟨a1, a2, a3⟩ := record_mono s o.toRtt
      obtain ⟨b1, b2, b3⟩ := ih (recordOutcome s o)
      exact ⟨le_trans a1 b1, le_trans a2 b2, le_trans a3 b3⟩

/-- Claim C7: after any recorded stream (any initial skip counter),
`ping_count = ping_success + ping_fail`; whenever a success exists,
`stat_min ≤ stat_ave ≤ stat_max`; and along the run (any prefix versus
its extension) the three counters are monotone non-decreasing. -/
theorem aggregator_invariants (k : ℕ) (l1 l2 : List ProbeOutcome) :
    (runOutcomes k (l1 ++ l2)).ping_count
      = (runOutcomes k (l1 ++ l2)).ping_success
        + (runOutcomes k (l1 ++ l2)).ping_fail ∧
    (0 < (runOutcomes k (l1 ++ l2)).ping_success →
      (runOutcomes k (l1 ++ l2)).stat_min ≤ (runOutcomes k (l1 ++ l2)).stat_ave ∧
      (runOutcomes k (l1 ++ l2)).stat_ave ≤ (runOutcomes k (l1 ++ l2)).stat_max) ∧
    (runOutcomes k l1).ping_count ≤ (runOutcomes k (l1 ++ l2)).ping_count ∧
    (runOutcomes k l1).ping_success ≤ (runOutcomes k (l1 ++ l2)).ping_success ∧
    (runOutcomes k l1).ping_fail ≤ (runOutcomes k (l1 ++ l2)).ping_fail := by
  have hInv : Inv7 (runOutcomes k (l1 ++ l2)) :=
    inv7_fold (l1 ++ l2) (initStats k) (inv7_init k)
  obtain ⟨hc, hsc, -, hb⟩ := hInv
  have happ : runOutcomes k (l1 ++ l2) = l2.foldl recordOutcome (runOutcomes k l1) := by
    simp [runOutcomes, List.foldl_append]
  refine ⟨hc, ?_, ?_, ?_, ?_⟩
  · intro hp
    obtain ⟨hmin, hmax, hav⟩ := hb hp
    have hcount : (0 : ℚ) < ((runOutcomes k (l1 ++ l2)).stat_count : ℚ) := by
      rw [hsc]; exact_mod_cast hp
    constructor
    · rw [hav, le_div_iff₀ hcount]
      linarith
    · rw [hav, div_le_iff₀ hcount]
      linarith
  · rw [happ]; exact (fold_mono l2 (runOutcomes k l1)).1
  · rw [happ]; exact (fold_mono l2 (runOutcomes k l1)).2.1
  · rw [happ]; exact (fold_mono l2 (runOutcomes k l1)).2.2

/-- Witness for `aggregator_invariants` at a concrete prefix/extension. -/
theorem aggregator_invariants_witness :
    (runOutcomes 0 ([ProbeOutcome.success 5] ++ [ProbeOutcome.timeout])).ping_count
      = (runOutcomes 0 ([ProbeOutcome.success 5] ++ [ProbeOutcome.timeout])).ping_success
        + (runOutcomes 0 ([ProbeOutcome.success 5] ++ [ProbeOutcome.timeout])).ping_fail ∧
    (0 < (runOutcomes 0 ([ProbeOutcome.success 5] ++ [ProbeOutcome.timeout])).ping_success →
      (runOutcomes 0 ([ProbeOutcome.success 5] ++ [ProbeOutcome.timeout])).stat_min
        ≤ (runOutcomes 0 ([ProbeOutcome.success 5] ++ [ProbeOutcome.timeout])).stat_ave ∧
      (runOutcomes 0 ([ProbeOutcome.success 5] ++ [ProbeOutcome.timeout])).stat_ave
        ≤ (runOutcomes 0 ([ProbeOutcome.success 5] ++ [ProbeOutcome.timeout])).stat_max) ∧
    (runOutcomes 0 [ProbeOutcome.success 5]).ping_count
      ≤ (runOutcomes 0 ([ProbeOutcome.success 5] ++ [ProbeOutcome.timeout])).ping_count ∧
    (runOutcomes 0 [ProbeOutcome.success 5]).ping_success
      ≤ (runOutcomes 0 ([ProbeOutcome.success 5] ++ [ProbeOutcome.timeout])).ping_success ∧
    (runOutcomes 0 [ProbeOutcome.success 5]).ping_fail
      ≤ (runOutcomes 0 ([ProbeOutcome.success 5] ++ [ProbeOutcome.timeout])).ping_fail :=
  aggregator_invariants 0 [ProbeOutcome.success 5] [ProbeOutcome.timeout]

/-! Helpers for order-independence of the running min and max: the left
fold of `min` (resp. `max`) over a list is a member of the seeded list
and a lower (resp. upper) bound for it, hence depends only on the
multiset of elements. -/

theorem foldlMin_mem (l : List ℚ) : ∀ a : ℚ, l.foldl min a ∈ a :: l := by
  induction l with
  | nil => intro a; exact List.mem_singleton_self a
  | cons b t ih =>
      intro a
      rw [List.foldl_cons]
      rcases List.mem_cons.mp (ih (min a b)) with h1 | h1
      · rcases min_choice a b with hm | hm
        · rw [h1, hm]; exact List.mem_cons_self _ _
        · rw [h1, hm]; exact List.mem_cons_of_mem _ (List.mem_cons_self _ _)
      · exact List.mem_cons_of_mem _ (List.mem_cons_of_mem _ h1)

theorem foldlMin_le (l : List ℚ) : ∀ a : ℚ, ∀ x ∈ a :: l, l.foldl min a ≤ x := by
  induction l with
  | nil =>
      intro a x hx
      rw [List.mem_singleton] at hx
      simp [hx]
  | cons b t ih =>
      intro a x hx
      rw [List.foldl_cons]
      have hseed : t.foldl min (min a b) ≤ min a b :=
        ih (min a b) (min a b) (List.mem_cons_self _ _)
      rcases List.mem_cons.mp hx with h1 | h1
      · rw [h1]; exact le_trans hseed (min_le_left _ _)
      · rcases List.mem_cons.mp h1 with h2 | h2
        · rw [h2]; exact le_trans hseed (min_le_right _ _)
        · exact ih (min a b) x (List.mem_cons_of_mem _ h2)

theorem foldlMin_perm (a b : ℚ) (l m : List ℚ) (h : (a :: l).Perm (b :: m)) :
    l.foldl min a = m.foldl min b :=
  le_antisymm
    (foldlMin_le l a _ (h.symm.subset (foldlMin_mem m b)))
    (foldlMin_le m b _ (h.subset (foldlMin_mem l a)))

theorem foldlMax_mem (l : List ℚ) : ∀ a : ℚ, l.foldl max a ∈ a :: l := by
  induction l with
  | nil => intro a; exact List.mem_singleton_self a
  | cons b t ih =>
      intro a
      rw [List.foldl_cons]
      rcases List.mem_cons.mp (ih (max a b)) with h1 | h1
      · rcases max_choice a b with hm | hm
        · rw [h1, hm]; exact List.mem_cons_self _ _
        · rw [h1, hm]; exact List.mem_cons_of_mem _ (List.mem_cons_self _ _)
      · exact List.mem_cons_of_mem _ (List.mem_cons_of_mem _ h1)

theorem le_foldlMax (l : List ℚ) : ∀ a : ℚ, ∀ x ∈ a :: l, x ≤ l.foldl max a := by
  induction l with
  | nil =>
      intro a x hx
      rw [List.mem_singleton] at hx
      simp [hx]
  | cons b t ih =>
      intro a x hx
      rw [List.foldl_cons]
      have hseed : max a b ≤ t.foldl max (max a b) :=
        ih (max a b) (max a b) (List.mem_cons_self _ _)
      rcases List.mem_cons.mp hx with h1 | h1
      · rw [h1]; exact le_trans (le_max_left _ _) hseed
      · rcases List.mem_cons.mp h1 with h2 | h2
        · rw [h2]; exact le_trans (le_max_right _ _) hseed
        · exact ih (max a b) x (List.mem_cons_of_mem _ h2)

theorem foldlMax_perm (a b : ℚ) (l m : List ℚ) (h : (a :: l).Perm (b :: m)) :
    l.foldl max a = m.foldl max b :=
  le_antisymm
    (le_foldlMax m b _ (h.subset (foldlMax_mem l a)))
    (le_foldlMax l a _ (h.symm.subset (foldlMax_mem m b)))

/-- Feeding only successes is folding `record` over the raw rtt list. -/
theorem runOutcomes_map_success (k : ℕ) (l : List ℚ) :
    runOutcomes k (l.map ProbeOutcome.success) = l.foldl record (initStats k) := by
  simp [runOutcomes, List.foldl_map, recordOutcome, ProbeOutcome.toRtt]

/-- Closed forms of min/max/sum/count/average after folding further
positive rtts onto a state that has already seen a success. -/
theorem foldl_record_succ (l : List ℚ) : ∀ s : Stats, s.skip = 0 →
    s.stat_count ≠ 0 → (∀ r ∈ l, 0 < r) →
    s.stat_ave = s.stat_sum / (s.stat_count : ℚ) →
    (l.foldl record s).stat_min = l.foldl min s.stat_min ∧
    (l.foldl record s).stat_max = l.foldl max s.stat_max ∧
    (l.foldl record s).stat_sum = s.stat_sum + l.sum ∧
    (l.foldl record s).stat_count = s.stat_count + l.length ∧
    (l.foldl record s).stat_ave
      = (s.stat_sum + l.sum) / ((s.stat_count : ℚ) + (l.length : ℚ)) := by
  induction l with
  | nil =>
      intro s h0 hc hpos hav
      refine ⟨rfl, rfl, by simp, by simp, ?_⟩
      simpa using hav
  | cons r rest ih =>
      intro s h0 hc hpos hav
      have hr : 0 < r := hpos r (List.mem_cons_self _ _)
      have he := record_succ_eq s r h0 hr
      have h0' : (record s r).skip = 0 := by rw [he]; exact h0
      have hc' : (record s r).stat_count ≠ 0 := by rw [he]; dsimp only; omega
      have hav' : (record s r).stat_ave
          = (record s r).stat_sum / ((record s r).stat_count : ℚ) := by
        rw [he]; dsimp only; push_cast; rfl
      have hmin' : (record s r).stat_min = min s.stat_min r := by
        rw [he]; dsimp only; rw [if_neg hc]
      have hmax' : (record s r).stat_max = max s.stat_max r := by
        rw [he]; dsimp only; rw [if_neg hc]
      have hsum' : (record s r).stat_sum = s.stat_sum + r := by rw [he]
      have hcount' : (record s r).stat_count = s.stat_count + 1 := by rw [he]
      obtain ⟨m1, m2, m3, m4, m5⟩ :=
        ih (record s r) h0' hc' (fun x hx => hpos x (List.mem_cons_of_mem _ hx)) hav'
      rw [List.foldl_cons]
      refine ⟨?_, ?_, ?_, ?_, ?_⟩
      · rw [m1, hmin', List.foldl_cons]
      · rw [m2, hmax', List.foldl_cons]
      · rw [m3, hsum', List.sum_cons]; ring
      · rw [m4, hcount', List.length_cons]; omega
      · rw [m5, hsum', hcount', List.sum_cons, List.length_cons]
        push_cast
        ring_nf

/-- Closed forms for a nonempty all-success run from the initial state
with skip 0: min and max are seeded from the first sample and fold over
the rest, the average is the sum over the length. -/
theorem run_succ_closed (r0 : ℚ) (rest : List ℚ)
    (hpos : ∀ r ∈ r0 :: rest, 0 < r) :
    (runOutcomes 0 ((r0 :: rest).map ProbeOutcome.success)).stat_min
      = rest.foldl min r0 ∧
    (runOutcomes 0 ((r0 :: rest).map ProbeOutcome.success)).stat_max
      = rest.foldl max r0 ∧
    (runOutcomes 0 ((r0 :: rest).map ProbeOutcome.success)).stat_ave
      = (r0 :: rest).sum / ((r0 :: rest).length : ℚ) := by
  have hr0 : 0 < r0 := hpos r0 (List.mem_cons_self _ _)
  have he := record_succ_eq (initStats 0) r0 rfl hr0
  have h0' : (record (initStats 0) r0).skip = 0 := by rw [he]; rfl
  have hc' : (record (initStats 0) r0).stat_count ≠ 0 := by
    rw [he]; dsimp only; simp [initStats]
  have hav' : (record (initStats 0) r0).stat_ave
      = (record (initStats 0) r0).stat_sum / ((record (initStats 0) r0).stat_count : ℚ) := by
    rw [he]; dsimp only; push_cast; rfl
  have hmin' : (record (initStats 0) r0).stat_min = r0 := by
    rw [he]; dsimp only; simp [initStats]
  have hmax' : (record (initStats 0) r0).stat_max = r0 := by
    rw [he]; dsimp only; simp [initStats]
  have hsum' : (record (initStats 0) r0).stat_sum = r0 := by
    rw [he]; dsimp only; simp [initStats]
  have hcount' : (record (initStats 0) r0).stat_count = 1 := by
    rw [he]; dsimp only; simp [initStats]
  obtain ⟨m1, m2, m3, m4, m5⟩ :=
    foldl_record_succ rest (record (initStats 0) r0) h0' hc'
      (fun x hx => hpos x (List.mem_cons_of_mem _ hx)) hav'
  rw [runOutcomes_map_success, List.foldl_cons]
  refine ⟨?_, ?_, ?_⟩
  · rw [m1, hmin']
  · rw [m2, hmax']
  · rw [m5, hsum', hcount', List.sum_cons, List.length_cons]
    push_cast
    ring_nf

/-- Claim C8: for every nonempty all-success run with skip 0, the final
`stat_min`/`stat_max` are the fold of min/max seeded from the first
sample (not from zero) and `stat_ave` is the sum over the length; and
running any permutation of the same rtt sequence yields identical min,
max and average. -/
theorem stats_order_independence (r0 : ℚ) (rest l2 : List ℚ)
    (hpos : ∀ r ∈ r0 :: rest, 0 < r)
    (hperm : (r0 :: rest).Perm l2) :
    (runOutcomes 0 ((r0 :: rest).map ProbeOutcome.success)).stat_min
      = rest.foldl min r0 ∧
    (runOutcomes 0 ((r0 :: rest).map ProbeOutcome.success)).stat_max
      = rest.foldl max r0 ∧
    (runOutcomes 0 ((r0 :: rest).map ProbeOutcome.success)).stat_ave
      = (r0 :: rest).sum / ((r0 :: rest).length : ℚ) ∧
    (runOutcomes 0 [ProbeOutcome.success r0]).stat_min = r0 ∧
    (runOutcomes 0 [ProbeOutcome.success r0]).stat_max = r0 ∧
    (runOutcomes 0 (l2.map ProbeOutcome.success)).stat_min
      = (runOutcomes 0 ((r0 :: rest).map ProbeOutcome.success)).stat_min ∧
    (runOutcomes 0 (l2.map ProbeOutcome.success)).stat_max
      = (runOutcomes 0 ((r0 :: rest).map ProbeOutcome.success)).stat_max ∧
    (runOutcomes 0 (l2.map ProbeOutcome.success)).stat_ave
      = (runOutcomes 0 ((r0 :: rest).map ProbeOutcome.success)).stat_ave := by
  obtain ⟨hm1, hm2, hm3⟩ := run_succ_closed r0 rest hpos
  have hr0 : 0 < r0 := hpos r0 (List.mem_cons_self _ _)
  obtain ⟨hs1, hs2, -⟩ := run_succ_closed r0 []
    (by intro r hr; rw [List.mem_singleton] at hr; rw [hr]; exact hr0)
  cases l2 with
  | nil => exact absurd hperm.length_eq (by simp)
  | cons q0 qrest =>
      have hpos2 : ∀ r ∈ q0 :: qrest, 0 < r := fun r hr => hpos r (hperm.symm.subset hr)
      obtain ⟨hq1, hq2, hq3⟩ := run_succ_closed q0 qrest hpos2
      refine ⟨hm1, hm2, hm3, hs1, hs2, ?_, ?_, ?_⟩
      · rw [hq1, hm1]
        exact (foldlMin_perm r0 q0 rest qrest hperm).symm
      · rw [hq2, hm2]
        exact (foldlMax_perm r0 q0 rest qrest hperm).symm
      · rw [hq3, hm3, ← hperm.sum_eq, ← hperm.length_eq]

/-- Witness for `stats_order_independence` on [5, 7] against its
permutation [7, 5]. -/
theorem stats_order_independence_witness :
    (([5, 7] : List ℚ).Perm [7, 5]) ∧
    ((runOutcomes 0 (([5, 7] : List ℚ).map ProbeOutcome.success)).stat_min
        = [(7 : ℚ)].foldl min 5 ∧
     (runOutcomes 0 (([5, 7] : List ℚ).map ProbeOutcome.success)).stat_max
        = [(7 : ℚ)].foldl max 5 ∧
     (runOutcomes 0 (([5, 7] : List ℚ).map ProbeOutcome.success)).stat_ave
        = ([5, 7] : List ℚ).sum / (([5, 7] : List ℚ).length : ℚ) ∧
     (runOutcomes 0 [ProbeOutcome.success 5]).stat_min = 5 ∧
     (runOutcomes 0 [ProbeOutcome.success 5]).stat_max = 5 ∧
     (runOutcomes 0 (([7, 5] : List ℚ).map ProbeOutcome.success)).stat_min
        = (runOutcomes 0 (([5, 7] : List ℚ).map ProbeOutcome.success)).stat_min ∧
     (runOutcomes 0 (([7, 5] : List ℚ).map ProbeOutcome.success)).stat_max
        = (runOutcomes 0 (([5, 7] : List ℚ).map ProbeOutcome.success)).stat_max ∧
     (runOutcomes 0 (([7, 5] : List ℚ).map ProbeOutcome.success)).stat_ave
        = (runOutcomes 0 (([5, 7] : List ℚ).map ProbeOutcome.success)).stat_ave) :=
  ⟨List.Perm.swap 7 5 [],
    stats_order_independence 5 [7] [7, 5]
      (by norm_num [List.forall_mem_cons]) (List.Perm.swap 7 5 [])⟩

end TcpPing
